import Mathlib

/-
Verification of the fare-scan processor and the GPS trip/stop state machine
of the bus-pass driver dashboard.

The scan handler (onScanSuccess) and the trip-progress handlers
(handlePosition, simulateAtStop, updateStopStatus, startTrip) are embedded
below as pure functions over explicit datastore states.  Monetary amounts
are rationals (the source uses JS numbers for currency; all operations used
are exact on decimals).  The haversine distance helper (calculateDistance)
is floating-point trigonometry in the source; the transition logic is
verified for an arbitrary distance oracle parameter d, since every decision
in the source consumes the distance only through comparisons.
-/

namespace BusPass

/-! ## Fare scan processor (onScanSuccess in the source) -/

/-- Scan outcome tags, mirroring the scan_status strings of the source. -/
inductive ScanStatus
  | success
  | insufficient_balance
  | limit_exceeded
  | blocked
  | not_found
  deriving DecidableEq

/-- A pass holder row (students table): blocked flag and wallet balance. -/
structure Student where
  is_blocked : Bool
  wallet_balance : ℚ
  deriving DecidableEq

/-- A scan_logs row as written by onScanSuccess. -/
structure ScanLog where
  scan_status : ScanStatus
  fare_deducted : ℚ
  balance_after_scan : ℚ
  deriving DecidableEq

/-- A transactions row (ledger entry) as written by the charging path. -/
structure LedgerEntry where
  amount : ℚ
  balance_before : ℚ
  balance_after : ℚ
  deriving DecidableEq

/-- A low-balance notifications row (only the balance field matters here). -/
structure LowBalanceNote where
  balance : ℚ
  deriving DecidableEq

/-- The slice of the datastore one scan call touches: the row of the scanned holder
 (none models a lookup miss), and the scan logs of this holder since local
midnight, ledger entries, and notifications. -/
structure ScanDB where
  student : Option Student
  scan_logs : List ScanLog
  transactions : List LedgerEntry
  notifications : List LowBalanceNote
  deriving DecidableEq

/-- The result surfaced to the UI (setScanResult). -/
structure ScanResult where
  status : ScanStatus
  fareDeducted : Option ℚ
  balanceAfter : Option ℚ
  deriving DecidableEq

/-- Count of success scan logs since midnight: the scan_logs count query
with scan_status = success. -/
def todaySuccessCount (db : ScanDB) : Nat :=
  (db.scan_logs.filter (fun r => decide (r.scan_status = ScanStatus.success))).length

/-- Count of scan logs that actually charged fare (fare_deducted positive). -/
def chargingCount (db : ScanDB) : Nat :=
  (db.scan_logs.filter (fun r => decide (0 < r.fare_deducted))).length

/-- Append one scan log, leaving everything else unchanged. -/
def addLog (db : ScanDB) (r : ScanLog) : ScanDB :=
  { db with scan_logs := db.scan_logs ++ [r] }

/-- The scan handler onScanSuccess: look the student up, then branch on
blocked, on the count of successful scans of the day (at least 2, exactly 0,
else exactly 1), and on the balance, exactly as the source does. -/
def onScanSuccess (dailyFare : ℚ) (db : ScanDB) : ScanDB × ScanResult :=
  match db.student with
  | none => (db, ⟨ScanStatus.not_found, none, none⟩)
  | some student =>
    if student.is_blocked then
      (addLog db ⟨ScanStatus.blocked, 0, student.wallet_balance⟩,
       ⟨ScanStatus.blocked, none, none⟩)
    else if 2 ≤ todaySuccessCount db then
      (addLog db ⟨ScanStatus.limit_exceeded, 0, student.wallet_balance⟩,
       ⟨ScanStatus.limit_exceeded, none, none⟩)
    else if todaySuccessCount db = 0 then
      if student.wallet_balance < dailyFare then
        (addLog db ⟨ScanStatus.insufficient_balance, 0, student.wallet_balance⟩,
         ⟨ScanStatus.insufficient_balance, none, none⟩)
      else
        ({ student := some { student with
              wallet_balance := student.wallet_balance - dailyFare },
           scan_logs := db.scan_logs ++
             [⟨ScanStatus.success, dailyFare, student.wallet_balance - dailyFare⟩],
           transactions := db.transactions ++
             [⟨dailyFare, student.wallet_balance, student.wallet_balance - dailyFare⟩],
           notifications :=
             if student.wallet_balance - dailyFare < dailyFare * 3 then
               db.notifications ++ [⟨student.wallet_balance - dailyFare⟩]
             else db.notifications },
         ⟨ScanStatus.success, some dailyFare,
          some (student.wallet_balance - dailyFare)⟩)
    else
      (addLog db ⟨ScanStatus.success, 0, student.wallet_balance⟩,
       ⟨ScanStatus.success, some 0, some student.wallet_balance⟩)

/-- A day of scan attempts against one holder, applied in order. -/
def runScans (fares : List ℚ) (db : ScanDB) : ScanDB :=
  fares.foldl (fun d f => (onScanSuccess f d).1) db

/-! ### Helper lemmas about one scan step -/

@[simp] lemma addLog_student (db : ScanDB) (r : ScanLog) :
    (addLog db r).student = db.student := rfl

@[simp] lemma addLog_transactions (db : ScanDB) (r : ScanLog) :
    (addLog db r).transactions = db.transactions := rfl

@[simp] lemma addLog_scan_logs (db : ScanDB) (r : ScanLog) :
    (addLog db r).scan_logs = db.scan_logs ++ [r] := rfl

lemma todaySuccessCount_of_logs (db db' : ScanDB) (r : ScanLog)
    (h : db'.scan_logs = db.scan_logs ++ [r]) :
    todaySuccessCount db' = todaySuccessCount db +
      (if r.scan_status = ScanStatus.success then 1 else 0) := by
  unfold todaySuccessCount
  rw [h, List.filter_append]
  by_cases hr : r.scan_status = ScanStatus.success <;> simp [hr]

lemma chargingCount_of_logs (db db' : ScanDB) (r : ScanLog)
    (h : db'.scan_logs = db.scan_logs ++ [r]) :
    chargingCount db' = chargingCount db +
      (if 0 < r.fare_deducted then 1 else 0) := by
  unfold chargingCount
  rw [h, List.filter_append]
  by_cases hr : 0 < r.fare_deducted <;> simp [hr]

/-- Every branch of the scan handler either leaves the datastore unchanged
(the not-found branch) or appends exactly one scan log; a log with positive
fare is written only when the success count was zero, a success log only
when it was at most one, and a non-success log always carries fare zero. -/
lemma onScanSuccess_cases (f : ℚ) (db : ScanDB) :
    (onScanSuccess f db).1 = db ∨
    ∃ r : ScanLog,
      (onScanSuccess f db).1.scan_logs = db.scan_logs ++ [r] ∧
      (r.scan_status = ScanStatus.success ∧ 0 < r.fare_deducted →
        todaySuccessCount db = 0) ∧
      (r.scan_status = ScanStatus.success → todaySuccessCount db ≤ 1) ∧
      (¬ r.scan_status = ScanStatus.success → r.fare_deducted = 0) := by
  rcases hdb : db.student with _ | s
  · left
    simp [onScanSuccess, hdb]
  · simp only [onScanSuccess, hdb]
    split_ifs with h1 h2 h3 h4 h5
    · exact Or.inr ⟨⟨ScanStatus.blocked, 0, s.wallet_balance⟩, rfl,
        by simp, by simp, fun _ => rfl⟩
    · exact Or.inr ⟨⟨ScanStatus.limit_exceeded, 0, s.wallet_balance⟩, rfl,
        by simp, by simp, fun _ => rfl⟩
    · exact Or.inr ⟨⟨ScanStatus.insufficient_balance, 0, s.wallet_balance⟩,
        rfl, by simp, by simp, fun _ => rfl⟩
    · refine Or.inr ⟨⟨ScanStatus.success, f, s.wallet_balance - f⟩, rfl,
        ?_, ?_, ?_⟩
      · intro _; exact h3
      · intro _; omega
      · intro hcon; exact absurd rfl hcon
    · refine Or.inr ⟨⟨ScanStatus.success, f, s.wallet_balance - f⟩, rfl,
        ?_, ?_, ?_⟩
      · intro _; exact h3
      · intro _; omega
      · intro hcon; exact absurd rfl hcon
    · refine Or.inr ⟨⟨ScanStatus.success, 0, s.wallet_balance⟩, rfl,
        ?_, ?_, ?_⟩
      · intro hcon; exact absurd hcon.2 (lt_irrefl 0)
      · intro _; omega
      · intro _; rfl

lemma successCount_step (f : ℚ) (db : ScanDB)
    (h : todaySuccessCount db ≤ 2) :
    todaySuccessCount (onScanSuccess f db).1 ≤ 2 := by
  rcases onScanSuccess_cases f db with heq | ⟨r, hlogs, _, hle1, _⟩
  · rw [heq]; exact h
  · rw [todaySuccessCount_of_logs db _ r hlogs]
    by_cases hr : r.scan_status = ScanStatus.success
    · have := hle1 hr; simp [hr]; omega
    · simp [hr]; exact h

lemma chargingCount_step (f : ℚ) (db : ScanDB)
    (h1 : chargingCount db ≤ 1)
    (h2 : todaySuccessCount db = 0 → chargingCount db = 0) :
    chargingCount (onScanSuccess f db).1 ≤ 1 ∧
      (todaySuccessCount (onScanSuccess f db).1 = 0 →
        chargingCount (onScanSuccess f db).1 = 0) := by
  rcases onScanSuccess_cases f db with heq | ⟨r, hlogs, hch0, _, hns⟩
  · rw [heq]; exact ⟨h1, h2⟩
  · have hs := todaySuccessCount_of_logs db _ r hlogs
    have hc := chargingCount_of_logs db _ r hlogs
    by_cases hr : r.scan_status = ScanStatus.success
    · by_cases hf : 0 < r.fare_deducted
      · have hz := h2 (hch0 ⟨hr, hf⟩)
        refine ⟨?_, ?_⟩
        · rw [hc, hz]; simp [hf]
        · intro hcon; rw [hs] at hcon; simp [hr] at hcon
      · refine ⟨?_, ?_⟩
        · rw [hc]; simp [hf]; exact h1
        · intro hcon; rw [hs] at hcon; simp [hr] at hcon
    · have hf : ¬ 0 < r.fare_deducted := by
        rw [hns hr]; exact lt_irrefl 0
      refine ⟨?_, ?_⟩
      · rw [hc]; simp [hf]; exact h1
      · intro hcon
        rw [hc]; simp only [hf, if_neg (lt_irrefl (0 : ℚ)), if_false, Nat.add_zero]
        apply h2
        rw [hs] at hcon; simpa [hr] using hcon

lemma chargingCount_runScans (fares : List ℚ) :
    ∀ db : ScanDB, chargingCount db ≤ 1 →
      (todaySuccessCount db = 0 → chargingCount db = 0) →
      chargingCount (runScans fares db) ≤ 1 := by
  induction fares with
  | nil => intro db h1 _; exact h1
  | cons f fs ih =>
    intro db h1 h2
    have h := chargingCount_step f db h1 h2
    exact ih _ h.1 h.2

lemma successCount_runScans (fares : List ℚ) :
    ∀ db : ScanDB, todaySuccessCount db ≤ 2 →
      todaySuccessCount (runScans fares db) ≤ 2 := by
  induction fares with
  | nil => intro db h; exact h
  | cons f fs ih =>
    intro db h
    exact ih _ (successCount_step f db h)

/-! ### Concrete datastore states used by the witnesses -/

def studentA : Student := ⟨false, 100⟩

def studentB : Student := ⟨false, 40⟩

def dbFresh : ScanDB := ⟨some studentA, [], [], []⟩

def dbOneScan : ScanDB :=
  ⟨some studentB, [⟨ScanStatus.success, 60, 40⟩], [⟨60, 100, 40⟩], []⟩

def dbTwoScans : ScanDB :=
  ⟨some studentB,
   [⟨ScanStatus.success, 60, 40⟩, ⟨ScanStatus.success, 0, 40⟩],
   [⟨60, 100, 40⟩], []⟩

def dbPoor : ScanDB := ⟨some ⟨false, 30⟩, [], [], []⟩

def dbMissing : ScanDB := ⟨none, [], [], []⟩

/-! ### Claim theorems for the fare scan processor -/

/-- Claim C1: once the holder has at least one successful scan recorded
since local midnight, a further scan call leaves the holder row and the
ledger untouched; consequently, starting from an empty day, any sequence of
scan calls records at most one fare-charging scan log. -/
theorem scan_never_charges_twice_per_day (fare : ℚ) (db : ScanDB)
    (h : 1 ≤ todaySuccessCount db) :
    (onScanSuccess fare db).1.student = db.student ∧
    (onScanSuccess fare db).1.transactions = db.transactions ∧
    (∀ (fares : List ℚ) (start : ScanDB), start.scan_logs = [] →
        chargingCount (runScans fares start) ≤ 1) := by
  have hmain : (onScanSuccess fare db).1.student = db.student ∧
      (onScanSuccess fare db).1.transactions = db.transactions := by
    rcases hdb : db.student with _ | s
    · constructor <;> simp [onScanSuccess, hdb]
    · simp only [onScanSuccess, hdb]
      split_ifs with h1 h2 h3 h4 h5
      · exact ⟨hdb, rfl⟩
      · exact ⟨hdb, rfl⟩
      · omega
      · omega
      · omega
      · exact ⟨hdb, rfl⟩
  refine ⟨hmain.1, hmain.2, ?_⟩
  intro fares start h0
  have hch : chargingCount start = 0 := by simp [chargingCount, h0]
  exact chargingCount_runScans fares start (by omega) (fun _ => hch)

theorem scan_never_charges_twice_per_day_witness :
    (onScanSuccess 60 dbOneScan).1.student = dbOneScan.student ∧
    (onScanSuccess 60 dbOneScan).1.transactions = dbOneScan.transactions :=
  ⟨(scan_never_charges_twice_per_day 60 dbOneScan (by decide)).1,
   (scan_never_charges_twice_per_day 60 dbOneScan (by decide)).2.1⟩

/-- Claim C3: for an existing, non-blocked holder with no successful scan
today and balance at least the fare, the scan charges exactly the fare:
success result carrying the fare and the new balance, the balance
decremented, one ledger entry bracketing the old and new balances, one
success scan log, and a low-balance notification exactly when the new
balance is below three times the fare. -/
theorem first_scan_charges_fare (fare : ℚ) (db : ScanDB) (s : Student)
    (hs : db.student = some s) (hb : s.is_blocked = false)
    (hc : todaySuccessCount db = 0) (hbal : fare ≤ s.wallet_balance) :
    onScanSuccess fare db =
      ({ student := some { s with wallet_balance := s.wallet_balance - fare },
         scan_logs := db.scan_logs ++
           [⟨ScanStatus.success, fare, s.wallet_balance - fare⟩],
         transactions := db.transactions ++
           [⟨fare, s.wallet_balance, s.wallet_balance - fare⟩],
         notifications :=
           if s.wallet_balance - fare < fare * 3 then
             db.notifications ++ [⟨s.wallet_balance - fare⟩]
           else db.notifications },
       ⟨ScanStatus.success, some fare, some (s.wallet_balance - fare)⟩) := by
  simp only [onScanSuccess, hs]
  rw [if_neg (by simp [hb]), if_neg (by omega), if_pos hc,
      if_neg (not_lt.mpr hbal)]

theorem first_scan_charges_fare_witness :
    onScanSuccess 60 dbFresh =
      (⟨some ⟨false, 40⟩, [⟨ScanStatus.success, 60, 40⟩], [⟨60, 100, 40⟩],
        [⟨40⟩]⟩,
       ⟨ScanStatus.success, some 60, some 40⟩) := by
  rw [first_scan_charges_fare 60 dbFresh studentA rfl rfl rfl
    (by norm_num [studentA])]
  norm_num [studentA, dbFresh]

/-- Claim C6: for an existing, non-blocked holder with no successful scan
today and balance below the fare, the scan is rejected with an
insufficient-balance log at fare zero and no other change; and in general a
scan either leaves the holder row as it was or decrements by a fare that
fits the balance, so a deduction never drives the balance negative. -/
theorem insufficient_balance_no_deduction (fare : ℚ) (db : ScanDB)
    (s : Student) (hs : db.student = some s) (hb : s.is_blocked = false)
    (hc : todaySuccessCount db = 0) (hbal : s.wallet_balance < fare) :
    onScanSuccess fare db =
      (addLog db ⟨ScanStatus.insufficient_balance, 0, s.wallet_balance⟩,
       ⟨ScanStatus.insufficient_balance, none, none⟩) ∧
    (∀ (f2 : ℚ) (db2 : ScanDB) (s2 s3 : Student), db2.student = some s2 →
        (onScanSuccess f2 db2).1.student = some s3 →
        s3 = s2 ∨ (f2 ≤ s2.wallet_balance ∧
          s3.wallet_balance = s2.wallet_balance - f2 ∧
          0 ≤ s3.wallet_balance)) := by
  constructor
  · simp only [onScanSuccess, hs]
    rw [if_neg (by simp [hb]), if_neg (by omega), if_pos hc, if_pos hbal]
  · intro f2 db2 s2 s3 h2 h3
    simp only [onScanSuccess, h2] at h3
    split_ifs at h3 with g1 g2 g3 g4 g5
    · left
      simp only [addLog_student] at h3
      rw [h2] at h3
      exact (Option.some_inj.mp h3).symm
    · left
      simp only [addLog_student] at h3
      rw [h2] at h3
      exact (Option.some_inj.mp h3).symm
    · left
      simp only [addLog_student] at h3
      rw [h2] at h3
      exact (Option.some_inj.mp h3).symm
    · right
      have h4 := (Option.some_inj.mp h3).symm
      subst h4
      exact ⟨not_lt.mp g4, rfl, by simpa using not_lt.mp g4⟩
    · right
      have h4 := (Option.some_inj.mp h3).symm
      subst h4
      exact ⟨not_lt.mp g4, rfl, by simpa using not_lt.mp g4⟩
    · left
      simp only [addLog_student] at h3
      rw [h2] at h3
      exact (Option.some_inj.mp h3).symm

theorem insufficient_balance_no_deduction_witness :
    onScanSuccess 60 dbPoor =
      (addLog dbPoor ⟨ScanStatus.insufficient_balance, 0, 30⟩,
       ⟨ScanStatus.insufficient_balance, none, none⟩) :=
  (insufficient_balance_no_deduction 60 dbPoor ⟨false, 30⟩ rfl rfl rfl
    (by norm_num)).1

/-- Claim C7: for an existing, non-blocked holder with at least two
successful scans today, the scan is rejected with a limit-exceeded log at
fare zero and no other change; and starting from any state with at most
two successful scans today, no sequence of scan calls ever pushes the
successful-scan count of the day above two. -/
theorem third_scan_limit_exceeded (fare : ℚ) (db : ScanDB) (s : Student)
    (hs : db.student = some s) (hb : s.is_blocked = false)
    (hc : 2 ≤ todaySuccessCount db) :
    onScanSuccess fare db =
      (addLog db ⟨ScanStatus.limit_exceeded, 0, s.wallet_balance⟩,
       ⟨ScanStatus.limit_exceeded, none, none⟩) ∧
    (∀ (fares : List ℚ) (start : ScanDB), todaySuccessCount start ≤ 2 →
        todaySuccessCount (runScans fares start) ≤ 2) := by
  constructor
  · simp only [onScanSuccess, hs]
    rw [if_neg (by simp [hb]), if_pos hc]
  · intro fares start h0
    exact successCount_runScans fares start h0

theorem third_scan_limit_exceeded_witness :
    onScanSuccess 60 dbTwoScans =
      (addLog dbTwoScans ⟨ScanStatus.limit_exceeded, 0, 40⟩,
       ⟨ScanStatus.limit_exceeded, none, none⟩) :=
  (third_scan_limit_exceeded 60 dbTwoScans studentB rfl rfl (by decide)).1

/-- Claim C8: for an existing, non-blocked holder with exactly one
successful scan today, the scan succeeds free of charge: success result
with fare zero and the unchanged balance, one success scan log at fare
zero, and no other change, with no assumption on the balance. -/
theorem second_scan_free (fare : ℚ) (db : ScanDB) (s : Student)
    (hs : db.student = some s) (hb : s.is_blocked = false)
    (hc : todaySuccessCount db = 1) :
    onScanSuccess fare db =
      (addLog db ⟨ScanStatus.success, 0, s.wallet_balance⟩,
       ⟨ScanStatus.success, some 0, some s.wallet_balance⟩) := by
  simp only [onScanSuccess, hs]
  rw [if_neg (by simp [hb]), if_neg (by omega), if_neg (by omega)]

theorem second_scan_free_witness :
    onScanSuccess 60 dbOneScan =
      (addLog dbOneScan ⟨ScanStatus.success, 0, 40⟩,
       ⟨ScanStatus.success, some 0, some 40⟩) :=
  second_scan_free 60 dbOneScan studentB rfl rfl (by decide)

/-- Claim C9: a scanned id that resolves to no holder yields a not-found
result and writes nothing at all, while every scan against an existing
holder appends exactly one scan log, whatever the outcome. -/
theorem scan_audit_trail (fare : ℚ) (db : ScanDB) :
    (db.student = none →
      onScanSuccess fare db = (db, ⟨ScanStatus.not_found, none, none⟩)) ∧
    (∀ s : Student, db.student = some s →
      (onScanSuccess fare db).1.scan_logs.length =
        db.scan_logs.length + 1) := by
  constructor
  · intro h; simp [onScanSuccess, h]
  · intro s h
    simp only [onScanSuccess, h]
    split_ifs <;> simp [addLog]

theorem scan_audit_trail_witness :
    onScanSuccess 60 dbMissing =
      (dbMissing, ⟨ScanStatus.not_found, none, none⟩) :=
  (scan_audit_trail 60 dbMissing).1 rfl

/-! ## Trip progress engine (handlePosition, simulateAtStop,
updateStopStatus, startTrip in the source) -/

/-- Per-stop progress status of the trip_stop_events rows. -/
inductive TripStopStatus
  | pending
  | arrived
  | departed
  deriving DecidableEq

/-- A route stop joined with its trip status (StopWithStatus in the
source): latitude and longitude are nullable database columns, id and
event_id are row keys, sequence the position of the stop on the route. -/
structure StopWithStatus where
  id : Nat
  sequence : Nat
  latitude : Option ℚ
  longitude : Option ℚ
  status : TripStopStatus
  event_id : Option Nat
  deriving DecidableEq

/-- JS truthiness of a nullable numeric column: null is falsy and so is
the number zero, which is exactly how the source tests coordinate
presence. -/
def truthy : Option ℚ → Bool
  | none => false
  | some x => decide (x ≠ 0)

/-- The numeric value read after the truthiness test. -/
def numVal : Option ℚ → ℚ
  | none => 0
  | some x => x

/-- Both coordinates truthy (stopHasCoords in the source). -/
def stopHasCoords (s : StopWithStatus) : Bool :=
  truthy s.latitude && truthy s.longitude

/-- Manual buttons are rendered when GPS is off or the stop lacks truthy
coordinates. -/
def showManualButtons (gpsEnabled : Bool) (s : StopWithStatus) : Bool :=
  !gpsEnabled || !stopHasCoords s

def ARRIVAL_RADIUS_METERS : ℚ := 50

def DEPARTURE_RADIUS_METERS : ℚ := 80

/-- The distance oracle standing for calculateDistance: the source
computes a haversine great-circle distance in floating point, and every
decision consumes the value only through comparisons, so the transition
logic is verified for an arbitrary oracle. -/
abbrev DistFn := ℚ → ℚ → ℚ → ℚ → ℚ

def setStatus (s : StopWithStatus) (st : TripStopStatus) : StopWithStatus :=
  { s with status := st }

/-- The local effect of autoUpdateStopStatus on the stop being updated:
it returns untouched when the stop has no event id, and the debounce gate
g (the 30-second ref check, a time-dependent guard) may also suppress the
write; otherwise the status is set. -/
def applyAuto (g : Nat → Bool) (s : StopWithStatus) (st : TripStopStatus) :
    StopWithStatus :=
  if s.event_id.isSome = true ∧ g s.id = true then setStatus s st else s

/-- Eligibility of a pending stop: first stop of the list, or the
immediately preceding stop already departed. -/
def canArriveB (prev : Option StopWithStatus) : Bool :=
  match prev with
  | none => true
  | some p => decide (p.status = TripStopStatus.departed)

/-- The departure threshold: the minimum of the departure radius and 0.4
times the distance to the next stop when that stop has truthy
coordinates, else the departure radius. -/
def departureThreshold (d : DistFn) (stop : StopWithStatus) :
    Option StopWithStatus → ℚ
  | none => DEPARTURE_RADIUS_METERS
  | some next =>
    if stopHasCoords next then
      min DEPARTURE_RADIUS_METERS
        (d (numVal stop.latitude) (numVal stop.longitude)
           (numVal next.latitude) (numVal next.longitude) * (4 / 10))
    else DEPARTURE_RADIUS_METERS

/-- The loop body of handlePosition: walk the stops in list order
(sequence order, as fetched), skip stops without truthy coordinates, let
the first eligible pending stop arrive or the first arrived stop beyond
its departure threshold depart, and stop evaluating after the first
update.  The carried prev is the previous element of the full list; stop
ids are database primary keys, so the findIndex lookup of the source
resolves to exactly this position. -/
def handlePositionAux (d : DistFn) (lat lon : ℚ) (g : Nat → Bool) :
    Option StopWithStatus → List StopWithStatus → List StopWithStatus
  | _, [] => []
  | prev, stop :: rest =>
    if stopHasCoords stop = true then
      if stop.status = TripStopStatus.pending then
        if canArriveB prev = true ∧
            d lat lon (numVal stop.latitude) (numVal stop.longitude) ≤
              ARRIVAL_RADIUS_METERS then
          applyAuto g stop TripStopStatus.arrived :: rest
        else
          stop :: handlePositionAux d lat lon g (some stop) rest
      else if stop.status = TripStopStatus.arrived then
        if departureThreshold d stop rest.head? <
            d lat lon (numVal stop.latitude) (numVal stop.longitude) then
          applyAuto g stop TripStopStatus.departed :: rest
        else
          stop :: handlePositionAux d lat lon g (some stop) rest
      else
        stop :: handlePositionAux d lat lon g (some stop) rest
    else
      stop :: handlePositionAux d lat lon g (some stop) rest

/-- One GPS position sample evaluated against the stop list of the trip. -/
def handlePosition (d : DistFn) (lat lon : ℚ) (g : Nat → Bool)
    (stops : List StopWithStatus) : List StopWithStatus :=
  handlePositionAux d lat lon g none stops

/-- The loop body of simulateAtStop: same skip and arrival logic as the
GPS path, but every arrived stop other than the simulated target departs
without breaking the loop. -/
def simulateAux (d : DistFn) (g : Nat → Bool) (lat lon : ℚ)
    (targetId : Nat) :
    Option StopWithStatus → List StopWithStatus → List StopWithStatus
  | _, [] => []
  | prev, s :: rest =>
    if stopHasCoords s = true then
      if s.status = TripStopStatus.pending then
        if canArriveB prev = true ∧
            d lat lon (numVal s.latitude) (numVal s.longitude) ≤
              ARRIVAL_RADIUS_METERS then
          applyAuto g s TripStopStatus.arrived :: rest
        else
          s :: simulateAux d g lat lon targetId (some s) rest
      else if s.status = TripStopStatus.arrived then
        if s.id ≠ targetId then
          applyAuto g s TripStopStatus.departed ::
            simulateAux d g lat lon targetId (some s) rest
        else
          s :: simulateAux d g lat lon targetId (some s) rest
      else
        s :: simulateAux d g lat lon targetId (some s) rest
    else
      s :: simulateAux d g lat lon targetId (some s) rest

/-- simulateAtStop: no-op without an active trip or when the target stop
lacks truthy coordinates, else runs the loop with the position synthesized
at the coordinates of the target. -/
def simulateAtStop (d : DistFn) (g : Nat → Bool) (active : Bool)
    (target : StopWithStatus) (stops : List StopWithStatus) :
    List StopWithStatus :=
  if active = true ∧ stopHasCoords target = true then
    simulateAux d g (numVal target.latitude) (numVal target.longitude)
      target.id none stops
  else stops

/-- The trip state touched by the manual path: active flag, the
current_stop_sequence marker, and the stop list. -/
structure TripState where
  active : Bool
  current_stop_sequence : Nat
  stops : List StopWithStatus
  deriving DecidableEq

/-- The manual path updateStopStatus: without an active trip or an event
id it returns early; otherwise it unconditionally writes the requested
status to the event of the stop and moves current_stop_sequence to its
sequence — there is no re-validation of the ordering invariant. -/
def updateStopStatus (ts : TripState) (stop : StopWithStatus)
    (newStatus : TripStopStatus) : TripState :=
  if ts.active = true ∧ stop.event_id.isSome = true then
    { ts with
      stops := ts.stops.map
        (fun s => if s.id = stop.id then { s with status := newStatus }
         else s),
      current_stop_sequence := stop.sequence }
  else ts

/-- The guard the dashboard evaluates before rendering the manual Arrived
button for a stop (canArrive at the render site). -/
def manualCanArrive (prev : Option StopWithStatus) (s : StopWithStatus) :
    Bool :=
  decide (s.status = TripStopStatus.pending) && canArriveB prev

/-- An active_trips row. -/
structure ActiveTrip where
  id : Nat
  bus_id : Nat
  driver_id : Nat
  route_id : Nat
  is_active : Bool
  current_stop_sequence : Nat
  deriving DecidableEq

/-- A trip_stop_events row as inserted at trip start. -/
structure StopEvent where
  trip_id : Nat
  route_stop_id : Nat
  status : TripStopStatus
  deriving DecidableEq

/-- The trip store: all active_trips rows, all trip_stop_events rows, and
the next fresh row id. -/
structure TripDB where
  active_trips : List ActiveTrip
  trip_stop_events : List StopEvent
  next_id : Nat
  deriving DecidableEq

/-- startTrip: inserts a new active trip row with is_active true and one
pending stop event per stop, in the list (sequence) order of the fetched
stops.  The source performs no lookup for an existing active trip of the
bus before inserting. -/
def startTrip (busId driverId routeId : Nat) (stops : List StopWithStatus)
    (db : TripDB) : TripDB :=
  { active_trips := db.active_trips ++
      [⟨db.next_id, busId, driverId, routeId, true, 0⟩],
    trip_stop_events := db.trip_stop_events ++
      stops.map (fun s => ⟨db.next_id, s.id, TripStopStatus.pending⟩),
    next_id := db.next_id + 1 }

/-- Number of active trips recorded for a bus. -/
def activeTripsForBus (db : TripDB) (busId : Nat) : Nat :=
  (db.active_trips.filter
    (fun t => decide (t.bus_id = busId) && t.is_active)).length

/-- The element immediately preceding a position in a list, when the list
is reached with prev carrying the element just before it. -/
def lastOr (prev : Option StopWithStatus) :
    List StopWithStatus → Option StopWithStatus
  | [] => prev
  | s :: rest => lastOr (some s) rest

/-- The predecessor constraint of an arrival: no predecessor, or a
departed one. -/
def prevDeparted : Option StopWithStatus → Prop
  | none => True
  | some p => p.status = TripStopStatus.departed

/-! ### The one-transition-per-sample specification of handlePosition -/

/-- What one pass of the position loop over a suffix l, entered with prev
carrying the element just before l, may do: nothing, or update exactly
one stop that satisfies the legality conditions of its transition. -/
def HPSpec (d : DistFn) (lat lon : ℚ) (g : Nat → Bool)
    (prev : Option StopWithStatus) (l res : List StopWithStatus) : Prop :=
  res = l ∨
  ∃ pre stop post st2,
    l = pre ++ stop :: post ∧
    res = pre ++ setStatus stop st2 :: post ∧
    stop.event_id.isSome = true ∧ g stop.id = true ∧
    stopHasCoords stop = true ∧
    ((stop.status = TripStopStatus.pending ∧
        st2 = TripStopStatus.arrived ∧
        prevDeparted (lastOr prev pre) ∧
        d lat lon (numVal stop.latitude) (numVal stop.longitude) ≤
          ARRIVAL_RADIUS_METERS) ∨
     (stop.status = TripStopStatus.arrived ∧
        st2 = TripStopStatus.departed ∧
        departureThreshold d stop post.head? <
          d lat lon (numVal stop.latitude) (numVal stop.longitude)))

lemma HPSpec_cons (d : DistFn) (lat lon : ℚ) (g : Nat → Bool)
    (stop : StopWithStatus) (rest res : List StopWithStatus)
    (prev : Option StopWithStatus)
    (h : HPSpec d lat lon g (some stop) rest res) :
    HPSpec d lat lon g prev (stop :: rest) (stop :: res) := by
  rcases h with h | ⟨pre, s, post, st2, h1, h2, h3, h4, h5, h6⟩
  · left; rw [h]
  · right
    exact ⟨stop :: pre, s, post, st2, by simp [h1], by simp [h2],
      h3, h4, h5, h6⟩

lemma handlePositionAux_spec (d : DistFn) (lat lon : ℚ) (g : Nat → Bool)
    (l : List StopWithStatus) :
    ∀ prev : Option StopWithStatus,
      HPSpec d lat lon g prev l (handlePositionAux d lat lon g prev l) := by
  induction l with
  | nil => intro prev; left; rfl
  | cons stop rest ih =>
    intro prev
    by_cases hco : stopHasCoords stop = true
    · by_cases hp : stop.status = TripStopStatus.pending
      · by_cases hfire : canArriveB prev = true ∧
            d lat lon (numVal stop.latitude) (numVal stop.longitude) ≤
              ARRIVAL_RADIUS_METERS
        · rw [show handlePositionAux d lat lon g prev (stop :: rest) =
              applyAuto g stop TripStopStatus.arrived :: rest from by
            simp [handlePositionAux, hco, hp, hfire]]
          by_cases happ : stop.event_id.isSome = true ∧ g stop.id = true
          · right
            refine ⟨[], stop, rest, TripStopStatus.arrived, rfl, ?_,
              happ.1, happ.2, hco, Or.inl ⟨hp, rfl, ?_, hfire.2⟩⟩
            · simp [applyAuto, happ]
            · cases prev with
              | none => trivial
              | some p =>
                have hcan := hfire.1
                simp only [canArriveB, decide_eq_true_eq] at hcan
                exact hcan
          · left
            simp [applyAuto, happ]
        · rw [show handlePositionAux d lat lon g prev (stop :: rest) =
              stop :: handlePositionAux d lat lon g (some stop) rest from by
            simp [handlePositionAux, hco, hp, hfire]]
          exact HPSpec_cons d lat lon g stop rest _ prev (ih (some stop))
      · by_cases ha : stop.status = TripStopStatus.arrived
        · by_cases hfire : departureThreshold d stop rest.head? <
              d lat lon (numVal stop.latitude) (numVal stop.longitude)
          · rw [show handlePositionAux d lat lon g prev (stop :: rest) =
                applyAuto g stop TripStopStatus.departed :: rest from by
              simp [handlePositionAux, hco, hp, ha, hfire]]
            by_cases happ : stop.event_id.isSome = true ∧ g stop.id = true
            · right
              refine ⟨[], stop, rest, TripStopStatus.departed, rfl, ?_,
                happ.1, happ.2, hco, Or.inr ⟨ha, rfl, hfire⟩⟩
              simp [applyAuto, happ]
            · left
              simp [applyAuto, happ]
          · rw [show handlePositionAux d lat lon g prev (stop :: rest) =
                stop :: handlePositionAux d lat lon g (some stop) rest from by
              simp [handlePositionAux, hco, hp, ha, hfire]]
            exact HPSpec_cons d lat lon g stop rest _ prev (ih (some stop))
        · rw [show handlePositionAux d lat lon g prev (stop :: rest) =
              stop :: handlePositionAux d lat lon g (some stop) rest from by
            simp [handlePositionAux, hco, hp, ha]]
          exact HPSpec_cons d lat lon g stop rest _ prev (ih (some stop))
    · rw [show handlePositionAux d lat lon g prev (stop :: rest) =
          stop :: handlePositionAux d lat lon g (some stop) rest from by
        simp [handlePositionAux, hco]]
      exact HPSpec_cons d lat lon g stop rest _ prev (ih (some stop))

lemma lastOr_some_eq (l : List StopWithStatus) :
    ∀ s : StopWithStatus, lastOr (some s) l = (s :: l).getLast? := by
  induction l with
  | nil => intro s; simp [lastOr]
  | cons t ts ih =>
    intro s
    rw [show lastOr (some s) (t :: ts) = lastOr (some t) ts from rfl,
      ih t, List.getLast?_cons_cons]

lemma lastOr_none_eq (l : List StopWithStatus) :
    lastOr none l = l.getLast? := by
  cases l with
  | nil => rfl
  | cons s ts => exact lastOr_some_eq ts s

/-- Claim C2: a position sample changes at most one stop, and the change
is the first firing one in list (sequence) order: a pending stop may only
become arrived when it is the first stop or its immediate predecessor is
departed and the sample is within the 50 m arrival radius, and an arrived
stop may only become departed when the sample is beyond the threshold
min(80 m, 0.4 times the distance to the next located stop), else 80 m.
The distance oracle d stands for the floating-point haversine helper
calculateDistance, which the loop consumes only through comparisons. -/
theorem handlePosition_transition_spec (d : DistFn) (lat lon : ℚ)
    (g : Nat → Bool) (stops : List StopWithStatus) :
    handlePosition d lat lon g stops = stops ∨
    ∃ pre stop post st2,
      stops = pre ++ stop :: post ∧
      handlePosition d lat lon g stops =
        pre ++ setStatus stop st2 :: post ∧
      stop.event_id.isSome = true ∧ g stop.id = true ∧
      stopHasCoords stop = true ∧
      ((stop.status = TripStopStatus.pending ∧
          st2 = TripStopStatus.arrived ∧
          prevDeparted pre.getLast? ∧
          d lat lon (numVal stop.latitude) (numVal stop.longitude) ≤
            ARRIVAL_RADIUS_METERS) ∨
       (stop.status = TripStopStatus.arrived ∧
          st2 = TripStopStatus.departed ∧
          departureThreshold d stop post.head? <
            d lat lon (numVal stop.latitude) (numVal stop.longitude))) := by
  rcases handlePositionAux_spec d lat lon g stops none with
    h | ⟨pre, stop, post, st2, h1, h2, h3, h4, h5, h6⟩
  · exact Or.inl h
  · right
    refine ⟨pre, stop, post, st2, h1, h2, h3, h4, h5, ?_⟩
    rcases h6 with ⟨a, b, c, e⟩ | h6
    · exact Or.inl ⟨a, b, by rwa [lastOr_none_eq] at c, e⟩
    · exact Or.inr h6

/-! ### Stops without truthy coordinates are invisible to the automatic
paths -/

lemma handlePositionAux_preserves (d : DistFn) (lat lon : ℚ)
    (g : Nat → Bool) (z : StopWithStatus) (hz : stopHasCoords z = false)
    (l : List StopWithStatus) :
    ∀ (prev : Option StopWithStatus) (i : Nat), l[i]? = some z →
      (handlePositionAux d lat lon g prev l)[i]? = some z := by
  induction l with
  | nil => intro prev i h; simp at h
  | cons stop rest ih =>
    intro prev i h
    cases i with
    | zero =>
      simp only [List.getElem?_cons_zero, Option.some.injEq] at h
      subst h
      simp only [handlePositionAux]
      split_ifs with hco hp hfire ha hfire2 <;> try simp
      · simp [hz] at hco
      · simp [hz] at hco
    | succ n =>
      simp only [List.getElem?_cons_succ] at h
      simp only [handlePositionAux]
      split_ifs <;> simp only [List.getElem?_cons_succ]
      · exact h
      · exact ih (some stop) n h
      · exact h
      · exact ih (some stop) n h
      · exact ih (some stop) n h
      · exact ih (some stop) n h

lemma simulateAux_preserves (d : DistFn) (g : Nat → Bool) (lat lon : ℚ)
    (targetId : Nat) (z : StopWithStatus) (hz : stopHasCoords z = false)
    (l : List StopWithStatus) :
    ∀ (prev : Option StopWithStatus) (i : Nat), l[i]? = some z →
      (simulateAux d g lat lon targetId prev l)[i]? = some z := by
  induction l with
  | nil => intro prev i h; simp at h
  | cons s rest ih =>
    intro prev i h
    cases i with
    | zero =>
      simp only [List.getElem?_cons_zero, Option.some.injEq] at h
      subst h
      simp only [simulateAux]
      split_ifs with hco hp hfire ha hne <;> try simp
      · simp [hz] at hco
      · simp [hz] at hco
    | succ n =>
      simp only [List.getElem?_cons_succ] at h
      simp only [simulateAux]
      split_ifs <;> simp only [List.getElem?_cons_succ]
      · exact h
      · exact ih (some s) n h
      · exact ih (some s) n h
      · exact ih (some s) n h
      · exact ih (some s) n h
      · exact ih (some s) n h

/-- Claim C10: a stop whose latitude or longitude is numerically zero is
treated exactly like an unlocated stop: the GPS path and the simulation
path leave it untouched in every sample, simulating at it is a complete
no-op, and the manual path stays available for it because the coordinate
presence test is truthiness. -/
theorem zero_coordinate_stop_is_unlocated (d : DistFn) (lat lon : ℚ)
    (g : Nat → Bool) (z : StopWithStatus)
    (hz : z.latitude = some 0 ∨ z.longitude = some 0) :
    (∀ (stops : List StopWithStatus) (i : Nat), stops[i]? = some z →
        (handlePosition d lat lon g stops)[i]? = some z) ∧
    (∀ (target : StopWithStatus) (active : Bool)
        (stops : List StopWithStatus) (i : Nat), stops[i]? = some z →
        (simulateAtStop d g active target stops)[i]? = some z) ∧
    (∀ (active : Bool) (stops : List StopWithStatus),
        simulateAtStop d g active z stops = stops) ∧
    stopHasCoords z = false ∧
    showManualButtons true z = true := by
  have hz2 : stopHasCoords z = false := by
    rcases hz with h | h <;> simp [stopHasCoords, truthy, h]
  refine ⟨?_, ?_, ?_, hz2, ?_⟩
  · intro stops i h
    exact handlePositionAux_preserves d lat lon g z hz2 stops none i h
  · intro target active stops i h
    unfold simulateAtStop
    split_ifs with hcond
    · exact simulateAux_preserves d g _ _ target.id z hz2 stops none i h
    · exact h
  · intro active stops
    unfold simulateAtStop
    rw [if_neg]
    intro hcon
    rw [hz2] at hcon
    exact absurd hcon.2 (by simp)
  · simp [showManualButtons, hz2]

def zStop : StopWithStatus :=
  ⟨7, 3, some 0, some 12, TripStopStatus.pending, some 107⟩

def dZero : DistFn := fun _ _ _ _ => 0

def gAll : Nat → Bool := fun _ => true

theorem zero_coordinate_stop_is_unlocated_witness :
    (handlePosition dZero 0 0 gAll [zStop])[0]? = some zStop ∧
    simulateAtStop dZero gAll true zStop [zStop] = [zStop] ∧
    stopHasCoords zStop = false :=
  ⟨(zero_coordinate_stop_is_unlocated dZero 0 0 gAll zStop
      (Or.inl rfl)).1 [zStop] 0 rfl,
   (zero_coordinate_stop_is_unlocated dZero 0 0 gAll zStop
      (Or.inl rfl)).2.2.1 true [zStop],
   (zero_coordinate_stop_is_unlocated dZero 0 0 gAll zStop
      (Or.inl rfl)).2.2.2.1⟩

/-! ### The manual path applies illegal transitions (claim C4) and
startTrip does not guard against an existing active trip (claim C5) -/

def stopA0 : StopWithStatus :=
  ⟨1, 1, none, none, TripStopStatus.pending, some 101⟩

def stopB0 : StopWithStatus :=
  ⟨2, 2, none, none, TripStopStatus.pending, some 102⟩

def tripBefore : TripState := ⟨true, 0, [stopA0, stopB0]⟩

/-- Claim C4 is refuted by the code: with stop A still pending, the
dashboard guard would not render the Arrived button for stop B, but the
engine function updateStopStatus, asked for that very transition, applies
it — setting B to arrived and moving current_stop_sequence to B — instead
of leaving the state unchanged. -/
theorem updateStopStatus_applies_illegal_transition :
    manualCanArrive (some stopA0) stopB0 = false ∧
    updateStopStatus tripBefore stopB0 TripStopStatus.arrived =
      ⟨true, 2, [stopA0, setStatus stopB0 TripStopStatus.arrived]⟩ ∧
    updateStopStatus tripBefore stopB0 TripStopStatus.arrived ≠
      tripBefore := by
  refine ⟨?_, ?_, ?_⟩ <;> decide

def tripRow : ActiveTrip := ⟨0, 1, 5, 9, true, 0⟩

def dbBusActive : TripDB := ⟨[tripRow], [], 1⟩

/-- Claim C5 is refuted by the code: startTrip performs no lookup of an
existing active trip and has no failure path for it; called for a bus
that already has one active trip it inserts a second one, so the at most
one active trip per bus invariant is not enforced by the core.  The
second half of the claim does hold: the call creates one pending stop
event per stop, in sequence order. -/
theorem startTrip_inserts_second_active_trip :
    activeTripsForBus dbBusActive 1 = 1 ∧
    activeTripsForBus (startTrip 1 5 9 [stopA0, stopB0] dbBusActive) 1 =
      2 ∧
    (startTrip 1 5 9 [stopA0, stopB0] dbBusActive).trip_stop_events =
      [⟨1, 1, TripStopStatus.pending⟩, ⟨1, 2, TripStopStatus.pending⟩] := by
  refine ⟨?_, ?_, ?_⟩ <;> decide

end BusPass
